import Mathlib

/-!
Shallow embedding of `scripts/postinstall.js` from node-geolite2.

The script downloads MaxMind GeoLite2 database archives, checks staleness
via a HEAD request, and extracts `.mmdb` entries from a gzipped tar stream.
Effects (network, filesystem, streams) are made explicit: the network is an
oracle function from a URL plus merged request options to a response, the
filesystem state relevant to `isOutdated` is passed as arguments, and the
streaming extraction is modelled as a trace of demultiplexer/write events.
-/

/-- An HTTP response as seen by the script: status code, status message and
the `location` response header (`none` when the header is absent). -/
structure Response where
  statusCode : Nat
  statusMessage : String
  location : Option String
deriving DecidableEq

/-- The options bag passed to `request`. `authKey = none` models an options
object without an `auth` key (so the default auth computed from the account
id applies, line 68 of the script); `authKey = some a` models an options
object whose `auth` key is present with value `a` (`some none` is
`auth: null`), which overrides the default because the caller's options are
spread after the default in `https.request(url, { auth: ..., ...options })`. -/
structure ReqOptions where
  method : Option String
  authKey : Option (Option String)
deriving DecidableEq

/-- Result of the `request` function: a resolved response stream, a thrown
`Request failed` error (carrying the url, status code and status message of
the final response), or exhaustion of the recursion fuel (the JS recursion
has no bound; `noFuel` marks runs longer than the supplied fuel). -/
inductive ReqResult where
  | ok (r : Response)
  | failed (url : String) (code : Nat) (msg : String)
  | noFuel
deriving DecidableEq

/-- JS truthiness of `response.headers.location`: an absent header and the
empty string are falsy. -/
def locTruthy : Option String → Bool
  | none => false
  | some l => l != ""

/-- The `request` function (lines 62-92 of the script), with the network as
an oracle `net url auth method` and the default auth value
(`accountId ? accountId:licenseKey : null`) passed in as `dAuth`. On a 3xx
status with a truthy `location` header it recurses on the new URL with the
caller's options but `auth: null`; otherwise a status other than 200 throws
and a 200 response is returned. `fuel` bounds the recursion depth. -/
def request (net : String → Option String → Option String → Response)
    (dAuth : Option String) : Nat → String → ReqOptions → ReqResult
  | 0, _, _ => ReqResult.noFuel
  | fuel + 1, url, opts =>
    let auth := opts.authKey.getD dAuth
    let r := net url auth opts.method
    if 300 ≤ r.statusCode ∧ r.statusCode < 400 ∧ locTruthy r.location = true then
      request net dAuth fuel (r.location.getD "") ⟨opts.method, some none⟩
    else if r.statusCode ≠ 200 then
      ReqResult.failed url r.statusCode r.statusMessage
    else
      ReqResult.ok r

/-- The redirect chase performed by `request`, in isolation: follow 3xx
responses with a truthy `location` header (clearing auth at each hop) and
return the final url/response pair, `none` when fuel runs out. -/
def resolveRedirects (net : String → Option String → Option String → Response)
    (dAuth : Option String) : Nat → String → ReqOptions → Option (String × Response)
  | 0, _, _ => none
  | fuel + 1, url, opts =>
    let auth := opts.authKey.getD dAuth
    let r := net url auth opts.method
    if 300 ≤ r.statusCode ∧ r.statusCode < 400 ∧ locTruthy r.location = true then
      resolveRedirects net dAuth fuel (r.location.getD "") ⟨opts.method, some none⟩
    else
      some (url, r)

/-- Concrete network used to exercise redirect behaviour: "a" redirects to
"b", "b" redirects to "c", and "c" answers 200. -/
def cNet1 : String → Option String → Option String → Response := fun url _ _ =>
  if url = "a" then ⟨302, "Found", some "b"⟩
  else if url = "b" then ⟨302, "Found", some "c"⟩
  else ⟨200, "OK", none⟩

/-- Concrete network answering 204 No Content (a 2xx status other than 200)
to every request. -/
def cNet2 : String → Option String → Option String → Response :=
  fun _ _ _ => ⟨204, "No Content", none⟩

/-- JS truthiness of the `accountId` variable (`undefined` or a string):
`undefined` and the empty string are falsy. -/
def jsTruthy : Option String → Bool
  | none => false
  | some s => s != ""

/-- The `link` arrow function (lines 48-51): with a truthy account id the
new download URL path, otherwise the legacy URL with the license key as a
query parameter. The globals `accountId` and `licenseKey` are parameters. -/
def link (accountId : Option String) (licenseKey : String) (edition : String) : String :=
  if jsTruthy accountId then
    "https://download.maxmind.com/geoip/databases/" ++ edition ++ "/download?suffix=tar.gz"
  else
    "https://download.maxmind.com/app/geoip_download?edition_id=" ++ edition ++
      "&license_key=" ++ licenseKey ++ "&suffix=tar.gz"

/-- The default `auth` option of `https.request` (line 68):
`accountId ? accountId:licenseKey : null`. -/
def defaultAuth : Option String → String → Option String
  | some a, k => if a != "" then some (a ++ ":" ++ k) else none
  | none, _ => none

/-- Startup configuration resolution (lines 8-44): `getLicense` and
`getAccountId` results are given as `Except` values; a throwing call leaves
the corresponding variable `undefined` (here `none`) after its `catch`
block. A falsy license key makes the script exit (modelled as `none`);
otherwise the run proceeds with the pair (accountId, licenseKey). -/
def startupConfig (lic : Except String String) (acct : Except String String) :
    Option (Option String × String) :=
  let licenseKey : Option String := match lic with
    | Except.ok k => some k
    | Except.error _ => none
  let accountId : Option String := match acct with
    | Except.ok a => some a
    | Except.error _ => none
  match licenseKey with
  | some k => if k != "" then some (accountId, k) else none
  | none => none

/-- The fixed enumeration of database kinds (line 54). -/
def fixedEditions : List String := ["City", "Country", "ASN"]

/-- The `editionIds` computation (lines 54-56): the fixed enumeration
filtered by the caller's selection, each name prefixed with `GeoLite2-`. -/
def editionIds (selected : List String) : List String :=
  (fixedEditions.filter (fun e => selected.contains e)).map (fun e => "GeoLite2-" ++ e)

/-- JS `String.prototype.endsWith`, expressed on the character data. -/
def jsEndsWith (s tail : String) : Bool := List.isSuffixOf tail.data s.data

/-- Node's `path.basename` for the slash-separated entry paths appearing in
the tar archive: the characters after the last `/`. (This agrees with Node
for every path without a trailing slash; entries reaching it end in
`.mmdb`, so they never carry a trailing slash.) -/
def basename (p : String) : String :=
  String.mk ((p.data.reverse.takeWhile (fun c => c ≠ '/')).reverse)

/-- Per-entry output decision of the `entry` handler (lines 122-130): an
entry whose path ends in `.mmdb` is written to
`downloadPath/basename(entry.path)`; any other entry produces no file. -/
def entryOutput (dir p : String) : Option String :=
  if jsEndsWith p ".mmdb" then some (dir ++ "/" ++ basename p) else none

/-- The set of files written for a list of archive entry paths. -/
def writtenFiles (dir : String) (entries : List String) : List String :=
  entries.filterMap (entryOutput dir)

/-- Events observed by the extraction pipeline: a tar `entry` event with the
entry's path, the tar `end` event, and the `finish` event of the write
stream for destination file `dst`. -/
inductive TarEv where
  | entry (path : String)
  | endEv
  | finish (dst : String)
deriving DecidableEq

/-- State of the extraction pipeline: whether the tar `end` event has fired,
and the destinations of registered entry writes whose `finish` event has not
yet fired (the unsettled promises in `entryPromises`). -/
structure PipeState where
  endSeen : Bool
  pending : List String
deriving DecidableEq

/-- One pipeline event (lines 119-133): a matching `entry` registers a write
promise for its destination, `end` resolves the outer promise, and a write's
`finish` settles its promise (removing one matching pending destination). -/
def pstep (dir : String) (s : PipeState) : TarEv → PipeState
  | TarEv.entry p =>
    match entryOutput dir p with
    | some dst => ⟨s.endSeen, s.pending ++ [dst]⟩
    | none => s
  | TarEv.endEv => ⟨true, s.pending⟩
  | TarEv.finish dst => ⟨s.endSeen, s.pending.erase dst⟩

/-- Pipeline state after a trace of events, from the initial state. -/
def prun (dir : String) (t : List TarEv) : PipeState :=
  t.foldl (pstep dir) ⟨false, []⟩

/-- The overall completion condition of lines 119-134: the `await` chain
(`await` the end promise, then `await Promise.all(entryPromises)`) has
resolved after trace `t` exactly when the `end` event has fired and every
registered write has finished. -/
def pipelineDone (dir : String) (t : List TarEv) : Bool :=
  (prun dir t).endSeen && (prun dir t).pending.isEmpty

/-- Whether an event is an `entry` event registering a write to `dst`. -/
def isEntryFor (dir dst : String) : TarEv → Bool
  | TarEv.entry p => entryOutput dir p == some dst
  | _ => false

/-- Whether an event is the `finish` event of a write to `dst`. -/
def isFinishFor (dst : String) : TarEv → Bool
  | TarEv.finish d => d == dst
  | _ => false

/-- Number of registered writes to `dst` in a trace. -/
def countE (dir dst : String) (t : List TarEv) : Nat := t.countP (isEntryFor dir dst)

/-- Number of finished writes to `dst` in a trace. -/
def countF (dst : String) (t : List TarEv) : Nat := t.countP (isFinishFor dst)

/-- Observable events of the main loop (lines 105-136), each tagged with the
edition id it concerns. -/
inductive Ev where
  | checkStart (id : String)
  | skip (id : String)
  | downloadStart (id : String)
  | extractDone (id : String)
deriving DecidableEq

/-- The edition id an event concerns. -/
def evId : Ev → String
  | Ev.checkStart id => id
  | Ev.skip id => id
  | Ev.downloadStart id => id
  | Ev.extractDone id => id

/-- The `main` loop (lines 105-136) over a list of edition ids. `chk id`
is the outcome of `await isOutdated(...)` for that edition (`Except.error`
models a thrown exception) and `dl id` the outcome of the download plus
extraction of that edition. The loop yields the trace of events in order
and the error that aborted the run, if any; a thrown exception stops the
loop immediately (it propagates out of `main` to the `.catch` handler). -/
def mainLoop (chk : String → Except String Bool) (dl : String → Except String Unit) :
    List String → List Ev × Option String
  | [] => ([], none)
  | id :: rest =>
    match chk id with
    | Except.error e => ([Ev.checkStart id], some e)
    | Except.ok false =>
      let r := mainLoop chk dl rest
      (Ev.checkStart id :: Ev.skip id :: r.1, r.2)
    | Except.ok true =>
      match dl id with
      | Except.error e => ([Ev.checkStart id, Ev.downloadStart id], some e)
      | Except.ok _ =>
        let r := mainLoop chk dl rest
        (Ev.checkStart id :: Ev.downloadStart id :: Ev.extractDone id :: r.1, r.2)

/-- The event block of a successfully processed edition. -/
def editionBlock (chk : String → Except String Bool) (id : String) : List Ev :=
  match chk id with
  | Except.ok false => [Ev.checkStart id, Ev.skip id]
  | _ => [Ev.checkStart id, Ev.downloadStart id, Ev.extractDone id]

/-- An edition whose processing succeeds: either its staleness check says it
is up to date, or it is outdated and its download and extraction succeed. -/
def editionOk (chk : String → Except String Bool) (dl : String → Except String Unit)
    (id : String) : Prop :=
  chk id = Except.ok false ∨ (chk id = Except.ok true ∧ dl id = Except.ok ())

/-- Comparison `localLastModified < remoteLastModified` where the right-hand
side is `Date.parse` of the `last-modified` header: `none` models `NaN`
(absent or unparseable header), and any comparison against `NaN` is false. -/
def nanLt (a : Int) : Option Int → Bool
  | none => false
  | some b => a < b

/-- The `isOutdated` function (lines 95-103). `fsExists` is
`fs.existsSync(dbPath)`, `mtimeMs` the local file's `mtimeMs`, and `head`
the outcome of the HEAD request together with the parsed `last-modified`
header (`none` for `NaN`). Returns the result (or propagated error) and a
flag recording whether a network request was issued. -/
def isOutdated (fsExists : Bool) (mtimeMs : Int) (head : Except String (Option Int)) :
    Except String Bool × Bool :=
  if fsExists = false then (Except.ok true, false)
  else
    match head with
    | Except.error e => (Except.error e, true)
    | Except.ok lm => (Except.ok (nanLt mtimeMs lm), true)

/-- Staleness check returning `false` for every edition (used to exercise
the skip path of the main loop). -/
def chkUpToDate : String → Except String Bool := fun _ => Except.ok false

/-- Staleness check that throws on edition "B" and reports up-to-date
otherwise (used to exercise the abort path of the main loop). -/
def wchk : String → Except String Bool
  | "B" => Except.error "boom"
  | _ => Except.ok false

/-- Download step that always succeeds. -/
def wdl : String → Except String Unit := fun _ => Except.ok ()

/-- Claim C5: URL construction is a pure function of the edition, the
presence of a (truthy) account id, and the license key. With an account id
it yields the new download URL and basic auth `accountId:licenseKey`; without
one it yields the legacy query-parameter URL and no auth. Determinism is
inherent: `link` and `defaultAuth` are functions of exactly these inputs. -/
theorem link_spec (a k ed : String) (h : a ≠ "") :
    link (some a) k ed =
        "https://download.maxmind.com/geoip/databases/" ++ ed ++ "/download?suffix=tar.gz"
    ∧ defaultAuth (some a) k = some (a ++ ":" ++ k)
    ∧ link none k ed =
        "https://download.maxmind.com/app/geoip_download?edition_id=" ++ ed ++
          "&license_key=" ++ k ++ "&suffix=tar.gz"
    ∧ defaultAuth none k = none := by
  refine ⟨?_, ?_, ?_, ?_⟩ <;> simp [link, defaultAuth, jsTruthy, h]

/-- Witness for C5 at a concrete account id, license key and edition. -/
theorem link_spec_witness :
    link (some "123") "KEY" "GeoLite2-City" =
        "https://download.maxmind.com/geoip/databases/" ++ "GeoLite2-City" ++ "/download?suffix=tar.gz"
    ∧ defaultAuth (some "123") "KEY" = some ("123" ++ ":" ++ "KEY")
    ∧ link none "KEY" "GeoLite2-City" =
        "https://download.maxmind.com/app/geoip_download?edition_id=" ++ "GeoLite2-City" ++
          "&license_key=" ++ "KEY" ++ "&suffix=tar.gz"
    ∧ defaultAuth none "KEY" = none :=
  link_spec "123" "KEY" "GeoLite2-City" (by decide)

/-- Claim C4: when the local file does not exist, `isOutdated` returns true
with no network call; otherwise it issues the HEAD request (network flag
true) and returns true exactly when the local modification time is strictly
earlier than the remote last-modified time, equality counting as not
outdated. -/
theorem isOutdated_spec (mtime r : Int) (head : Except String (Option Int)) :
    isOutdated false mtime head = (Except.ok true, false)
    ∧ isOutdated true mtime (Except.ok (some r)) = (Except.ok (decide (mtime < r)), true)
    ∧ ((isOutdated true mtime (Except.ok (some r))).1 = Except.ok true ↔ mtime < r)
    ∧ isOutdated true r (Except.ok (some r)) = (Except.ok false, true) := by
  refine ⟨?_, ?_, ?_, ?_⟩ <;> simp [isOutdated, nanLt]

/-- Claim C9: when the `last-modified` header is absent or unparseable
(`Date.parse` gives `NaN`, modelled as `none`), the comparison is false and
`isOutdated` returns false, so the main loop logs the edition as up to date,
skips the download, and continues with the remaining editions. -/
theorem isOutdated_nan_up_to_date (mtime : Int) (dl : String → Except String Unit)
    (id : String) (rest : List String) :
    isOutdated true mtime (Except.ok none) = (Except.ok false, true)
    ∧ mainLoop chkUpToDate dl (id :: rest) =
        (Ev.checkStart id :: Ev.skip id :: (mainLoop chkUpToDate dl rest).1,
         (mainLoop chkUpToDate dl rest).2) := by
  refine ⟨?_, ?_⟩ <;> simp [isOutdated, nanLt, mainLoop, chkUpToDate]

/-- Claim C10: a failure of `getAccountId` is non-fatal. The exception is
caught, the run continues with `accountId` undefined, every request then
uses the legacy query-parameter URL with no basic-auth header, and the run
aborts at startup only over the license key: with a truthy license key the
configuration always resolves, while a failing `getLicense` always aborts. -/
theorem accountId_failure_nonfatal (e k ed : String) (acct : Except String String)
    (h : k ≠ "") :
    startupConfig (Except.ok k) (Except.error e) = some (none, k)
    ∧ link none k ed =
        "https://download.maxmind.com/app/geoip_download?edition_id=" ++ ed ++
          "&license_key=" ++ k ++ "&suffix=tar.gz"
    ∧ defaultAuth none k = none
    ∧ startupConfig (Except.ok k) acct ≠ none
    ∧ startupConfig (Except.error e) acct = none := by
  refine ⟨?_, ?_, ?_, ?_, ?_⟩
  · simp [startupConfig, h]
  · simp [link, jsTruthy]
  · simp [defaultAuth]
  · cases acct <;> simp [startupConfig, h]
  · cases acct <;> simp [startupConfig]

/-- Witness for C10 at a concrete license key and failing account id. -/
theorem accountId_failure_nonfatal_witness :
    startupConfig (Except.ok "KEY") (Except.error "oops") = some (none, "KEY")
    ∧ link none "KEY" "GeoLite2-City" =
        "https://download.maxmind.com/app/geoip_download?edition_id=" ++ "GeoLite2-City" ++
          "&license_key=" ++ "KEY" ++ "&suffix=tar.gz"
    ∧ defaultAuth none "KEY" = none
    ∧ startupConfig (Except.ok "KEY") (Except.error "oops") ≠ none
    ∧ startupConfig (Except.error "oops") (Except.error "oops") = none :=
  accountId_failure_nonfatal "oops" "KEY" "GeoLite2-City" (Except.error "oops") (by decide)

/-- Counterexample to claim C1 as stated: on the network `cNet1` the
response for "a" redirects to "b" and the response for "b" is again a 3xx
with a `location` header. The claim says this second response is final and,
being non-2xx, must fail the request; instead `request` follows the second
redirect as well and returns the 200 response of "c". -/
theorem redirect_second_hop_followed :
    300 ≤ (cNet1 "b" none none).statusCode ∧ (cNet1 "b" none none).statusCode < 400
    ∧ (cNet1 "b" none none).location = some "c"
    ∧ request cNet1 none 3 "a" ⟨none, none⟩ = ReqResult.ok ⟨200, "OK", none⟩ := by
  decide

/-- Counterexample to claim C2 as stated: 204 is a 2xx status, yet
`request` throws `Request failed` for it because the code tests
`statusCode !== 200`, not membership in the 2xx range. -/
theorem request_fails_on_204 :
    (200 ≤ 204 ∧ 204 < 300)
    ∧ request cNet2 none 1 "u" ⟨none, none⟩ = ReqResult.failed "u" 204 "No Content" := by
  decide

/-- Claim C1 (amended): on a 3xx response with a truthy `location` header,
`request` re-issues the request to the new URL with the same options but
authentication cleared — and this happens at every hop, not just the first:
redirects are followed recursively (bounded here only by fuel), so a second
consecutive 3xx response is followed rather than treated as final. -/
theorem redirect_hop_unfold (net : String → Option String → Option String → Response)
    (dAuth : Option String) (fuel : Nat) (url : String) (opts : ReqOptions) (l : String)
    (h3 : 300 ≤ (net url (opts.authKey.getD dAuth) opts.method).statusCode)
    (h4 : (net url (opts.authKey.getD dAuth) opts.method).statusCode < 400)
    (hl : (net url (opts.authKey.getD dAuth) opts.method).location = some l)
    (hne : l ≠ "") :
    request net dAuth (fuel + 1) url opts = request net dAuth fuel l ⟨opts.method, some none⟩ := by
  have hc : 300 ≤ (net url (opts.authKey.getD dAuth) opts.method).statusCode
      ∧ (net url (opts.authKey.getD dAuth) opts.method).statusCode < 400
      ∧ locTruthy (net url (opts.authKey.getD dAuth) opts.method).location = true := by
    refine ⟨h3, h4, ?_⟩
    rw [hl]
    simp [locTruthy, hne]
  simp only [request]
  rw [if_pos hc, hl]
  rfl

/-- Witness for the amended C1 on the concrete redirecting network. -/
theorem redirect_hop_unfold_witness :
    (cNet1 "a" ((ReqOptions.mk none none).authKey.getD none) (ReqOptions.mk none none).method).location = some "b"
    ∧ request cNet1 none 3 "a" ⟨none, none⟩ = request cNet1 none 2 "b" ⟨none, some none⟩ :=
  ⟨by decide,
   redirect_hop_unfold cNet1 none 2 "a" ⟨none, none⟩ "b" (by decide) (by decide) (by decide) (by decide)⟩

/-- Claim C2 (amended): after redirect resolution, `request` throws a
`Request failed` error carrying the final URL and its status code/message
exactly when the final response status is not 200 (so 2xx statuses other
than 200 also fail), and returns the live response exactly on status 200. -/
theorem request_ok_iff_status_200 (net : String → Option String → Option String → Response)
    (dAuth : Option String) (fuel : Nat) (url : String) (opts : ReqOptions) :
    request net dAuth fuel url opts =
      match resolveRedirects net dAuth fuel url opts with
      | none => ReqResult.noFuel
      | some (u, r) =>
        if r.statusCode = 200 then ReqResult.ok r
        else ReqResult.failed u r.statusCode r.statusMessage := by
  induction fuel generalizing url opts with
  | zero => rfl
  | succ n ih =>
    simp only [request, resolveRedirects]
    by_cases hc : 300 ≤ (net url (opts.authKey.getD dAuth) opts.method).statusCode
        ∧ (net url (opts.authKey.getD dAuth) opts.method).statusCode < 400
        ∧ locTruthy (net url (opts.authKey.getD dAuth) opts.method).location = true
    · rw [if_pos hc, if_pos hc]
      exact ih _ _
    · rw [if_neg hc, if_neg hc]
      by_cases h2 : (net url (opts.authKey.getD dAuth) opts.method).statusCode = 200
      · simp [h2]
      · simp [h2]

/-- Every event produced by the main loop concerns an edition id of the
list being iterated. -/
theorem mainLoop_events_mem (chk : String → Except String Bool)
    (dl : String → Except String Unit) :
    ∀ (l : List String) (ev : Ev), ev ∈ (mainLoop chk dl l).1 → evId ev ∈ l := by
  intro l
  induction l with
  | nil => intro ev h; simp [mainLoop] at h
  | cons id rest ih =>
    intro ev h
    simp only [mainLoop] at h
    cases hc : chk id with
    | error e =>
      rw [hc] at h
      simp at h
      subst h
      simp [evId]
    | ok b =>
      rw [hc] at h
      cases b with
      | false =>
        simp at h
        rcases h with h | h | h
        · subst h; simp [evId]
        · subst h; simp [evId]
        · exact List.mem_cons_of_mem _ (ih ev h)
      | true =>
        cases hd : dl id with
        | error e =>
          rw [hd] at h
          simp at h
          rcases h with h | h
          · subst h; simp [evId]
          · subst h; simp [evId]
        | ok u =>
          rw [hd] at h
          simp at h
          rcases h with h | h | h | h
          · subst h; simp [evId]
          · subst h; simp [evId]
          · subst h; simp [evId]
          · exact List.mem_cons_of_mem _ (ih ev h)

/-- Claim C6: `editionIds` is exactly the fixed enumeration
`{City, Country, ASN}` filtered to the members of the selection, in the
fixed order (a sublist of the fully-mapped enumeration), each mapped to
`GeoLite2-<Name>`; and the main loop emits no event — hence no request and
no write — for any edition id outside that list. -/
theorem editionIds_spec (selected : List String) (x : String)
    (chk : String → Except String Bool) (dl : String → Except String Unit) :
    (x ∈ editionIds selected ↔ ∃ n, n ∈ fixedEditions ∧ n ∈ selected ∧ x = "GeoLite2-" ++ n)
    ∧ (editionIds selected).Sublist (fixedEditions.map (fun e => "GeoLite2-" ++ e))
    ∧ (∀ ev ∈ (mainLoop chk dl (editionIds selected)).1, evId ev ∈ editionIds selected) := by
  refine ⟨?_, ?_, ?_⟩
  · simp only [editionIds, List.mem_map, List.mem_filter]
    constructor
    · rintro ⟨n, ⟨hn1, hn2⟩, hx⟩
      exact ⟨n, hn1, by simpa using hn2, hx.symm⟩
    · rintro ⟨n, hn1, hn2, hx⟩
      exact ⟨n, ⟨hn1, by simpa using hn2⟩, hx.symm⟩
  · exact List.Sublist.map _ (List.filter_sublist _)
  · intro ev h
    exact mainLoop_events_mem chk dl _ ev h

/-- Witness for C6: selecting City yields the GeoLite2-City edition id. -/
theorem editionIds_spec_witness :
    "GeoLite2-City" ∈ editionIds ["City"] :=
  (editionIds_spec ["City"] "GeoLite2-City" chkUpToDate wdl).1.mpr
    ⟨"City", by decide, by decide, by decide⟩

/-- Claim C7: an archive entry produces an output file exactly when its
path ends in `.mmdb`, in which case the file is
`downloadDirectory/<basename(entry.path)>`; a written file always stems from
such an entry, and entries not ending in `.mmdb` produce nothing. -/
theorem entryOutput_spec (dir : String) (entries : List String) (p f : String) :
    ((entryOutput dir p).isSome = true ↔ jsEndsWith p ".mmdb" = true)
    ∧ (jsEndsWith p ".mmdb" = true → entryOutput dir p = some (dir ++ "/" ++ basename p))
    ∧ (jsEndsWith p ".mmdb" = false → entryOutput dir p = none)
    ∧ (f ∈ writtenFiles dir entries ↔
        ∃ q, q ∈ entries ∧ jsEndsWith q ".mmdb" = true ∧ f = dir ++ "/" ++ basename q) := by
  refine ⟨?_, ?_, ?_, ?_⟩
  · by_cases h : jsEndsWith p ".mmdb" = true <;> simp [entryOutput, h]
  · intro h; simp [entryOutput, h]
  · intro h; simp [entryOutput, h]
  · simp only [writtenFiles, List.mem_filterMap]
    constructor
    · rintro ⟨q, hq, hout⟩
      by_cases h : jsEndsWith q ".mmdb" = true
      · refine ⟨q, hq, h, ?_⟩
        simp [entryOutput, h] at hout
        exact hout.symm
      · simp [entryOutput, h] at hout
    · rintro ⟨q, hq, h, hf⟩
      exact ⟨q, hq, by simp [entryOutput, h, hf]⟩

/-- Witness for C7: of the entries GeoLite2-City.mmdb and COPYRIGHT.txt,
only the `.mmdb` entry is written. -/
theorem entryOutput_spec_witness :
    "dbs/GeoLite2-City.mmdb" ∈ writtenFiles "dbs" ["GeoLite2-City.mmdb", "COPYRIGHT.txt"] :=
  (entryOutput_spec "dbs" ["GeoLite2-City.mmdb", "COPYRIGHT.txt"] "x" "dbs/GeoLite2-City.mmdb").2.2.2.mpr
    ⟨"GeoLite2-City.mmdb", by decide, by decide, by decide⟩

/-- Claim C8: editions are processed strictly sequentially — the trace is
the concatenation of the per-edition blocks of the successful prefix, in
order, so edition N+1's staleness check begins only after edition N's block
(including its extraction) is complete — and the first failing edition stops
the loop: its error is the final outcome and no event of any later edition
(the tail `l2`) occurs in the trace. -/
theorem mainLoop_abort_on_failure (chk : String → Except String Bool)
    (dl : String → Except String Unit) (l1 l2 : List String) (bad e : String)
    (h1 : ∀ id ∈ l1, editionOk chk dl id)
    (h2 : chk bad = Except.error e ∨ (chk bad = Except.ok true ∧ dl bad = Except.error e)) :
    mainLoop chk dl (l1 ++ bad :: l2) =
      (l1.flatMap (editionBlock chk) ++ (mainLoop chk dl [bad]).1, some e) := by
  induction l1 with
  | nil =>
    rcases h2 with hc | ⟨hc, hd⟩
    · simp [mainLoop, hc]
    · simp [mainLoop, hc, hd]
  | cons id rest ih =>
    have hid := h1 id (by simp)
    have hrest : ∀ i ∈ rest, editionOk chk dl i := fun i hi => h1 i (by simp [hi])
    rcases hid with hc | ⟨hc, hd⟩
    · simp [mainLoop, hc, editionBlock, ih hrest]
    · simp [mainLoop, hc, hd, editionBlock, ih hrest]

/-- Witness for C8: with editions A, B, C where B's check throws, A is
processed, B aborts the run, and C is never reached. -/
theorem mainLoop_abort_on_failure_witness :
    mainLoop wchk wdl ["A", "B", "C"] =
      (["A"].flatMap (editionBlock wchk) ++ (mainLoop wchk wdl ["B"]).1, some "boom") :=
  mainLoop_abort_on_failure wchk wdl ["A"] ["C"] "B" "boom"
    (fun id h => by
      simp only [List.mem_singleton] at h
      subst h
      exact Or.inl rfl)
    (Or.inl rfl)

/-- Each registered write in a trace is matched, up to the still-pending
ones, by a finished write: the pending multiset absorbs the difference
between registrations and completions. -/
theorem pending_count_lower_bound (dir dst : String) :
    ∀ (t : List TarEv) (s : PipeState),
      countE dir dst t + s.pending.count dst ≤
        countF dst t + ((t.foldl (pstep dir) s).pending.count dst) := by
  intro t
  induction t with
  | nil => intro s; simp [countE, countF]
  | cons ev rest ih =>
    intro s
    cases ev with
    | entry p =>
      cases hout : entryOutput dir p with
      | none =>
        have hstep : pstep dir s (TarEv.entry p) = s := by simp [pstep, hout]
        have hE : countE dir dst (TarEv.entry p :: rest) = countE dir dst rest := by
          simp [countE, List.countP_cons, isEntryFor, hout]
        have hF : countF dst (TarEv.entry p :: rest) = countF dst rest := by
          simp [countF, List.countP_cons, isFinishFor]
        rw [List.foldl_cons, hstep, hE, hF]
        exact ih s
      | some d =>
        have hstep : pstep dir s (TarEv.entry p) = ⟨s.endSeen, s.pending ++ [d]⟩ := by
          simp [pstep, hout]
        have hF : countF dst (TarEv.entry p :: rest) = countF dst rest := by
          simp [countF, List.countP_cons, isFinishFor]
        rw [List.foldl_cons, hstep, hF]
        have := ih ⟨s.endSeen, s.pending ++ [d]⟩
        by_cases hd : d = dst
        · have hE : countE dir dst (TarEv.entry p :: rest) = countE dir dst rest + 1 := by
            simp [countE, List.countP_cons, isEntryFor, hout, hd]
          have hcnt : (s.pending ++ [d]).count dst = s.pending.count dst + 1 := by
            simp [List.count_append, List.count_cons, hd]
          rw [hE]
          simp only [hcnt] at this ⊢
          omega
        · have hE : countE dir dst (TarEv.entry p :: rest) = countE dir dst rest := by
            simp [countE, List.countP_cons, isEntryFor, hout, hd]
          have hdd : (dst == d) = false := by
            simp only [beq_eq_false_iff_ne, ne_eq]
            exact fun h => hd h.symm
          have hcnt : (s.pending ++ [d]).count dst = s.pending.count dst := by
            simp [List.count_append, List.count_cons, hdd]
            exact hd
          rw [hE]
          simp only [hcnt] at this ⊢
          omega
    | endEv =>
      have hstep : pstep dir s TarEv.endEv = ⟨true, s.pending⟩ := by simp [pstep]
      have hE : countE dir dst (TarEv.endEv :: rest) = countE dir dst rest := by
        simp [countE, List.countP_cons, isEntryFor]
      have hF : countF dst (TarEv.endEv :: rest) = countF dst rest := by
        simp [countF, List.countP_cons, isFinishFor]
      rw [List.foldl_cons, hstep, hE, hF]
      exact ih ⟨true, s.pending⟩
    | finish d =>
      have hstep : pstep dir s (TarEv.finish d) = ⟨s.endSeen, s.pending.erase d⟩ := by
        simp [pstep]
      have hE : countE dir dst (TarEv.finish d :: rest) = countE dir dst rest := by
        simp [countE, List.countP_cons, isEntryFor]
      rw [List.foldl_cons, hstep, hE]
      have := ih ⟨s.endSeen, s.pending.erase d⟩
      have herase : (s.pending.erase d).count dst =
          s.pending.count dst - if (d == dst) = true then 1 else 0 := List.count_erase dst d s.pending
      by_cases hd : d = dst
      · have hF : countF dst (TarEv.finish d :: rest) = countF dst rest + 1 := by
          simp [countF, List.countP_cons, isFinishFor, hd]
        have hdd : (d == dst) = true := by simp [hd]
        rw [hF]
        rw [herase] at this
        simp only [hdd, if_true] at this
        omega
      · have hF : countF dst (TarEv.finish d :: rest) = countF dst rest := by
          simp [countF, List.countP_cons, isFinishFor, hd]
        have hdd : (d == dst) = false := by
          simp only [beq_eq_false_iff_ne, ne_eq]
          exact hd
        rw [hF]
        rw [herase, hdd] at this
        simp only [Bool.false_eq_true, if_false] at this
        omega

/-- Only the `end` event sets the end-of-stream flag. -/
theorem pstep_endSeen (dir : String) (s : PipeState) (ev : TarEv)
    (h : (pstep dir s ev).endSeen = true) : s.endSeen = true ∨ ev = TarEv.endEv := by
  cases ev with
  | entry p =>
    cases hout : entryOutput dir p with
    | none => rw [pstep, hout] at h; exact Or.inl h
    | some d => rw [pstep, hout] at h; exact Or.inl h
  | endEv => exact Or.inr rfl
  | finish d => rw [pstep] at h; exact Or.inl h

/-- If the end-of-stream flag is set after a trace, the trace contains the
`end` event (or the flag was already set). -/
theorem endSeen_of_foldl (dir : String) :
    ∀ (t : List TarEv) (s : PipeState),
      (t.foldl (pstep dir) s).endSeen = true → s.endSeen = true ∨ TarEv.endEv ∈ t := by
  intro t
  induction t with
  | nil => intro s h; exact Or.inl h
  | cons ev rest ih =>
    intro s h
    rw [List.foldl_cons] at h
    rcases ih (pstep dir s ev) h with h' | h'
    · rcases pstep_endSeen dir s ev h' with h'' | h''
      · exact Or.inl h''
      · exact Or.inr (h'' ▸ List.mem_cons_self _ _)
    · exact Or.inr (List.mem_cons_of_mem _ h')

/-- Claim C3: whenever the extraction pipeline's completion condition
holds after the first `k` events of a trace — in any order of entries and
interleaving of write completions — the tar demultiplexer's `end` event has
already occurred among those events, and for every destination the number of
finished writes is at least the number of registered writes, i.e. every
registered per-entry write has completed. -/
theorem pipeline_done_after_end_and_writes (dir : String) (t : List TarEv) (k : Nat)
    (dst : String) (h : pipelineDone dir (t.take k) = true) :
    TarEv.endEv ∈ t.take k ∧ countE dir dst (t.take k) ≤ countF dst (t.take k) := by
  rw [pipelineDone, Bool.and_eq_true] at h
  obtain ⟨h1, h2⟩ := h
  have hnil : (prun dir (t.take k)).pending = [] := by
    rwa [List.isEmpty_iff] at h2
  constructor
  · rcases endSeen_of_foldl dir (t.take k) ⟨false, []⟩ h1 with h' | h'
    · simp at h'
    · exact h'
  · have hb := pending_count_lower_bound dir dst (t.take k) ⟨false, []⟩
    rw [prun] at hnil
    rw [hnil] at hb
    simpa using hb

/-- Witness for C3 on a concrete trace with one matching entry, one
non-matching implicit skip, the end event and the write's finish. -/
theorem pipeline_done_after_end_and_writes_witness :
    pipelineDone "dbs" ([TarEv.entry "x/a.mmdb", TarEv.endEv, TarEv.finish "dbs/a.mmdb"].take 3) = true
    ∧ (TarEv.endEv ∈ [TarEv.entry "x/a.mmdb", TarEv.endEv, TarEv.finish "dbs/a.mmdb"].take 3
       ∧ countE "dbs" "dbs/a.mmdb" ([TarEv.entry "x/a.mmdb", TarEv.endEv, TarEv.finish "dbs/a.mmdb"].take 3)
           ≤ countF "dbs/a.mmdb" ([TarEv.entry "x/a.mmdb", TarEv.endEv, TarEv.finish "dbs/a.mmdb"].take 3)) :=
  ⟨by decide,
   pipeline_done_after_end_and_writes "dbs"
     [TarEv.entry "x/a.mmdb", TarEv.endEv, TarEv.finish "dbs/a.mmdb"] 3 "dbs/a.mmdb" (by decide)⟩
